import Mathlib

/-!
Shallow embedding of the pi-lane race engine
(src/backend/src/pilane/race/engine.py) together with proofs about its
lap-recording, power, position-estimation and lifecycle behaviour.

Modelling conventions:
* Python floats (clock readings, power levels, positions) are exact
  rationals; Python `int(x)` truncation toward zero is `pyInt`;
  Python `x % 1.0` is `pyMod1`.
* The Python `dict[int, LaneState]` is an insertion-ordered association
  list with `dictLookup` / `dictInsert` mirroring `d[k]` reads and
  `d[k] = v` writes (overwrite in place, append when new).
* Every WebSocket broadcast becomes an element of an explicit event
  list returned next to the new engine state; a function that performs
  no broadcast returns an empty list.
* The asyncio clock is passed in explicitly as a rational argument.
-/

namespace PiLane

/-- Internal race engine state (class RaceEngineState). -/
inductive RaceEngineState where
  | idle
  | countdown
  | running
  | paused
  | finished
  deriving DecidableEq, Repr

/-- State for a single lane during a race (dataclass LaneState). -/
structure LaneState where
  lane_number : ℤ
  car_id : ℤ
  power_level : ℚ := 0
  current_lap : ℤ := 0
  lap_times_ms : List ℤ := []
  best_lap_time_ms : Option ℤ := none
  total_time_ms : ℤ := 0
  last_lap_timestamp : ℚ := 0
  estimated_position : ℚ := 0
  fuel_level : ℚ := 100
  finished : Bool := false
  finish_position : Option ℤ := none
  deriving DecidableEq, Repr

/-- Complete race state (dataclass RaceState). -/
structure RaceState where
  race_id : ℤ
  track_id : ℤ
  mode : String
  target_laps : ℤ
  time_limit_seconds : Option ℤ
  fuel_simulation_enabled : Bool
  lanes : List (ℤ × LaneState) := []
  state : RaceEngineState := .idle
  start_time : Option ℚ := none
  elapsed_time_ms : ℤ := 0
  countdown_remaining : ℤ := 5
  finish_order : List ℤ := []
  deriving DecidableEq, Repr

/-- The engine object: the optional current race plus whether a tick
task is currently scheduled (class RaceEngine, fields of init). -/
structure RaceEngine where
  current_race : Option RaceState := none
  tick_task : Bool := false
  deriving DecidableEq, Repr

/-- One WebSocket event envelope, by message type, with the payload
fields the claims talk about. -/
inductive Event where
  | countdownEv (remaining : ℤ)
  | startedEv (race_id : ℤ)
  | lapEv (race_id car_id lane lap_number lap_time_ms : ℤ) (is_best_lap : Bool)
  | stateEv (race_id : ℤ)
  | finishedEv (race_id : ℤ) (finish_order : List ℤ)
  | cancelledEv (race_id : ℤ)
  deriving DecidableEq, Repr

/-- One entry of the participants list handed to setup_race:
p["car_id"] and p["lane"]. -/
structure Participant where
  car_id : ℤ
  lane : ℤ
  deriving DecidableEq, Repr

/-- Python int() applied to a float: truncation toward zero. -/
def pyInt (q : ℚ) : ℤ := if 0 ≤ q then ⌊q⌋ else ⌈q⌉

/-- Python x % 1.0 for a float x: the fractional part, in [0, 1). -/
def pyMod1 (q : ℚ) : ℚ := q - ⌊q⌋

/-- settings.sim_base_lap_time_ms (config.py, default 5000). -/
def sim_base_lap_time_ms : ℤ := 5000

/-- d[k] read on the insertion-ordered dict. -/
def dictLookup (d : List (ℤ × LaneState)) (k : ℤ) : Option LaneState :=
  match d with
  | [] => none
  | kv :: rest => if kv.1 = k then some kv.2 else dictLookup rest k

/-- d[k] = v write on the insertion-ordered dict: overwrite the
existing entry in place, or append a new one. -/
def dictInsert (d : List (ℤ × LaneState)) (k : ℤ) (v : LaneState) :
    List (ℤ × LaneState) :=
  match d with
  | [] => [(k, v)]
  | kv :: rest =>
    if kv.1 = k then (k, v) :: rest else kv :: dictInsert rest k v

/-- The LaneState built for one participant in setup_race. -/
def mkLane (p : Participant) : LaneState :=
  { lane_number := p.lane, car_id := p.car_id }

/-- The lanes dict built by the setup_race loop over participants. -/
def mkLanes (participants : List Participant) : List (ℤ × LaneState) :=
  participants.foldl (fun d p => dictInsert d p.lane (mkLane p)) []

/-- Python truthiness test used by setup_race:
self._current_race and self._current_race.state == RUNNING. -/
def isRunningSession (eng : RaceEngine) : Bool :=
  match eng.current_race with
  | some race => race.state = RaceEngineState.running
  | none => false

/-- The fresh RaceState constructed by setup_race. -/
def freshRace (race_id track_id : ℤ) (participants : List Participant)
    (mode : String) (target_laps : ℤ) (time_limit_seconds : Option ℤ)
    (fuel_simulation_enabled : Bool) : RaceState :=
  { race_id := race_id
    track_id := track_id
    mode := mode
    target_laps := target_laps
    time_limit_seconds := time_limit_seconds
    fuel_simulation_enabled := fuel_simulation_enabled
    lanes := mkLanes participants }

/-- RaceEngine.setup_race: raises RuntimeError while a race is RUNNING,
otherwise replaces the current race with a fresh one. -/
def RaceEngine.setup_race (eng : RaceEngine) (race_id track_id : ℤ)
    (participants : List Participant) (mode : String) (target_laps : ℤ)
    (time_limit_seconds : Option ℤ) (fuel_simulation_enabled : Bool) :
    Except String RaceEngine :=
  if isRunningSession eng then
    .error "Cannot setup new race while another is running"
  else
    .ok { eng with current_race := some (freshRace race_id track_id
      participants mode target_laps time_limit_seconds
      fuel_simulation_enabled) }

/-- RaceEngine._update_position_estimate: dead-reckoning position from
power level and time since the last crossing. -/
def update_position_estimate (ls : LaneState) (current_time : ℚ) :
    LaneState :=
  if ls.last_lap_timestamp = 0 then ls
  else
    let time_since_lap := current_time - ls.last_lap_timestamp
    let base_lap_time_s : ℚ := (sim_base_lap_time_ms : ℚ) / 1000
    if 0 < ls.power_level then
      let speed_factor := ls.power_level / 100
      { ls with estimated_position :=
          pyMod1 ((time_since_lap * speed_factor) / base_lap_time_s) }
    else ls

/-- The loop body of RaceEngine._finish_race over lanes.values(): mark
every not-yet-finished lane finished, give it the next finish position
and append its lane_number to finish_order. -/
def markUnfinished : List (ℤ × LaneState) → List ℤ →
    List (ℤ × LaneState) × List ℤ
  | [], ord => ([], ord)
  | kv :: rest, ord =>
    if kv.2.finished then
      let r := markUnfinished rest ord
      (kv :: r.1, r.2)
    else
      let ls' := { kv.2 with
        finished := true
        finish_position := some ((ord.length : ℤ) + 1) }
      let r := markUnfinished rest (ord ++ [kv.2.lane_number])
      ((kv.1, ls') :: r.1, r.2)

/-- RaceEngine._finish_race: cancel the tick task, force FINISHED, mark
remaining lanes finished and broadcast race:finished. -/
def RaceEngine.finish_race (eng : RaceEngine) : RaceEngine × List Event :=
  match eng.current_race with
  | none => ({ eng with tick_task := false }, [])
  | some race =>
    let m := markUnfinished race.lanes race.finish_order
    let race' := { race with
      state := RaceEngineState.finished
      lanes := m.1
      finish_order := m.2 }
    ({ eng with tick_task := false, current_race := some race' },
     [.finishedEv race'.race_id race'.finish_order])

/-- The Python local lap_time_ms of record_lap: milliseconds between
the crossing and the lane's last crossing, truncated like int(). -/
def lapTimeMs (ls : LaneState) (current_time : ℚ) : ℤ :=
  pyInt ((current_time - ls.last_lap_timestamp) * 1000)

/-- The Python local is_best of record_lap: true when there is no best
lap yet or the new time is a strict improvement. -/
def isBestLap (best : Option ℤ) (t : ℤ) : Bool :=
  match best with
  | none => true
  | some b => t < b

/-- The lane-state mutations of record_lap for a counted lap: bump
current_lap, append and accumulate the lap time, reset the position
estimate, stamp the crossing time, track the best lap. -/
def countLap (ls : LaneState) (current_time : ℚ) : LaneState :=
  { ls with
    last_lap_timestamp := current_time
    current_lap := ls.current_lap + 1
    lap_times_ms := ls.lap_times_ms ++ [lapTimeMs ls current_time]
    total_time_ms := ls.total_time_ms + lapTimeMs ls current_time
    estimated_position := 0
    best_lap_time_ms :=
      if isBestLap ls.best_lap_time_ms (lapTimeMs ls current_time) then
        some (lapTimeMs ls current_time)
      else ls.best_lap_time_ms }

/-- The lane-state mutations of record_lap when the lane reaches its
target lap count: finished, with the next 1-based finish position. -/
def finishLane (ls : LaneState) (ord : List ℤ) : LaneState :=
  { ls with
    finished := true
    finish_position := some ((ord.length : ℤ) + 1) }

/-- The race:lap event broadcast for a counted lap. -/
def lapEventOf (race : RaceState) (ls : LaneState) (lane : ℤ)
    (current_time : ℚ) : Event :=
  .lapEv race.race_id ls.car_id lane (ls.current_lap + 1)
    (lapTimeMs ls current_time)
    (isBestLap ls.best_lap_time_ms (lapTimeMs ls current_time))

/-- RaceEngine.record_lap: process one lap-crossing event at the given
clock reading. -/
def RaceEngine.record_lap (eng : RaceEngine) (lane : ℤ)
    (current_time : ℚ) : RaceEngine × List Event :=
  match eng.current_race with
  | none => (eng, [])
  | some race =>
    if race.state = RaceEngineState.running then
      match dictLookup race.lanes lane with
      | none => (eng, [])
      | some lane_state =>
        if lane_state.finished then (eng, [])
        else if lane_state.current_lap = 0 ∧
            lapTimeMs lane_state current_time < 1000 then
          ({ eng with
             current_race :=
               some { race with
                 lanes := dictInsert race.lanes lane
                   { lane_state with last_lap_timestamp := current_time } } },
           [])
        else if race.mode = "race_laps" ∧
            race.target_laps ≤ (countLap lane_state current_time).current_lap
        then
          let race' := { race with
            lanes := dictInsert race.lanes lane
              (finishLane (countLap lane_state current_time)
                race.finish_order)
            finish_order := race.finish_order ++ [lane] }
          if race'.lanes.all (fun kv => kv.2.finished) then
            let fr :=
              RaceEngine.finish_race { eng with current_race := some race' }
            (fr.1, lapEventOf race lane_state lane current_time :: fr.2)
          else
            ({ eng with current_race := some race' },
             [lapEventOf race lane_state lane current_time])
        else
          ({ eng with
             current_race :=
               some { race with
                 lanes := dictInsert race.lanes lane
                   (countLap lane_state current_time) } },
           [lapEventOf race lane_state lane current_time])
    else (eng, [])

/-- RaceEngine.set_power: clamp into [0,100]; silent no-op when there is
no session or the lane is unknown; performs no broadcast. -/
def RaceEngine.set_power (eng : RaceEngine) (lane : ℤ) (power_level : ℚ) :
    RaceEngine :=
  match eng.current_race with
  | none => eng
  | some race =>
    match dictLookup race.lanes lane with
    | none => eng
    | some ls =>
      let ls' := { ls with power_level := max 0 (min 100 power_level) }
      { eng with
        current_race :=
          some { race with lanes := dictInsert race.lanes lane ls' } }

/-- RaceEngine.pause. -/
def RaceEngine.pause (eng : RaceEngine) : RaceEngine × List Event :=
  match eng.current_race with
  | none => (eng, [])
  | some race =>
    if race.state = RaceEngineState.running then
      ({ eng with
         current_race := some { race with state := RaceEngineState.paused }
         tick_task := false },
       [.stateEv race.race_id])
    else (eng, [])

/-- RaceEngine.resume. -/
def RaceEngine.resume (eng : RaceEngine) : RaceEngine × List Event :=
  match eng.current_race with
  | none => (eng, [])
  | some race =>
    if race.state = RaceEngineState.paused then
      ({ eng with
         current_race := some { race with state := RaceEngineState.running }
         tick_task := true },
       [.stateEv race.race_id])
    else (eng, [])

/-- RaceEngine.stop: cancel the tick task; if a session exists, force
its state to FINISHED and broadcast race:cancelled. -/
def RaceEngine.stop (eng : RaceEngine) : RaceEngine × List Event :=
  match eng.current_race with
  | none => ({ eng with tick_task := false }, [])
  | some race =>
    ({ eng with
       tick_task := false
       current_race :=
         some { race with state := RaceEngineState.finished } },
     [.cancelledEv race.race_id])

/-- RaceEngine._start_race: mark RUNNING, stamp start_time, initialize
every lane's last_lap_timestamp, schedule the tick loop. -/
def RaceEngine.start_race (eng : RaceEngine) (now : ℚ) :
    RaceEngine × List Event :=
  match eng.current_race with
  | none => (eng, [])
  | some race =>
    let race' := { race with
      state := RaceEngineState.running
      start_time := some now
      lanes := race.lanes.map
        (fun kv => (kv.1, { kv.2 with last_lap_timestamp := now })) }
    ({ eng with
       current_race := some race'
       tick_task := true },
     [.startedEv race.race_id])

/-- RaceEngine.start_countdown: 5-to-1 countdown broadcasts, then
_start_race at the given clock reading. -/
def RaceEngine.start_countdown (eng : RaceEngine) (now : ℚ) :
    Except String (RaceEngine × List Event) :=
  match eng.current_race with
  | none => .error "No race to start"
  | some race =>
    let race1 := { race with state := .countdown, countdown_remaining := 1 }
    let cds : List Event :=
      [.stateEv race.race_id, .countdownEv 5,
       .stateEv race.race_id, .countdownEv 4,
       .stateEv race.race_id, .countdownEv 3,
       .stateEv race.race_id, .countdownEv 2,
       .stateEv race.race_id, .countdownEv 1]
    let sr := RaceEngine.start_race { eng with current_race := some race1 } now
    .ok (sr.1, cds ++ sr.2)

/-- Per-lane work of one RaceEngine._tick iteration: position estimate,
then fuel decrement when fuel simulation is enabled; finished lanes are
skipped. -/
def tickLaneFun (fuel : Bool) (now : ℚ) (ls : LaneState) : LaneState :=
  if ls.finished then ls
  else
    let ls1 := update_position_estimate ls now
    if fuel then
      { ls1 with
        fuel_level := max 0 (ls1.fuel_level - ls1.power_level * (1 / 1000)) }
    else ls1

/-- tickLaneFun applied to one dict entry, key kept. -/
def tickLane (fuel : Bool) (now : ℚ) (kv : ℤ × LaneState) :
    ℤ × LaneState :=
  (kv.1, tickLaneFun fuel now kv.2)

/-- RaceEngine._tick: recompute elapsed time, update every unfinished
lane, finish on time-limit expiry, else broadcast a throttled state
snapshot. The early return covers both start_time None and 0.0,
matching Python truthiness. -/
def RaceEngine.tick (eng : RaceEngine) (now : ℚ) : RaceEngine × List Event :=
  match eng.current_race with
  | none => (eng, [])
  | some race =>
    match race.start_time with
    | none => (eng, [])
    | some st =>
      if st = 0 then (eng, [])
      else
        let race1 := { race with
          elapsed_time_ms := pyInt ((now - st) * 1000)
          lanes := race.lanes.map (tickLane race.fuel_simulation_enabled now) }
        let eng1 := { eng with current_race := some race1 }
        let timeLimitHit : Bool :=
          match race1.time_limit_seconds with
          | none => false
          | some tl => tl ≠ 0 ∧ tl * 1000 ≤ race1.elapsed_time_ms
        if timeLimitHit then RaceEngine.finish_race eng1
        else if pyInt (now * 10) % 5 = 0 then (eng1, [.stateEv race1.race_id])
        else (eng1, [])

/-- The inbound operations that drive the engine, clock readings
attached where the Python code reads the event-loop clock. -/
inductive Op where
  | setupOp (race_id track_id : ℤ) (participants : List Participant)
      (mode : String) (target_laps : ℤ) (time_limit_seconds : Option ℤ)
      (fuel : Bool)
  | startOp (now : ℚ)
  | recordLapOp (lane : ℤ) (now : ℚ)
  | setPowerOp (lane : ℤ) (power : ℚ)
  | tickOp (now : ℚ)
  | pauseOp
  | resumeOp
  | stopOp
  deriving DecidableEq, Repr

/-- One engine step with its broadcasts. A raised RuntimeError leaves
the engine unchanged; ticks only happen while the loop condition
(state == RUNNING) holds. -/
def stepEv (eng : RaceEngine) (op : Op) : RaceEngine × List Event :=
  match op with
  | .setupOp rid tid ps mode tl tls fuel =>
    match eng.setup_race rid tid ps mode tl tls fuel with
    | .ok e => (e, [])
    | .error _ => (eng, [])
  | .startOp now =>
    match eng.start_countdown now with
    | .ok r => r
    | .error _ => (eng, [])
  | .recordLapOp lane now => eng.record_lap lane now
  | .setPowerOp lane p => (eng.set_power lane p, [])
  | .tickOp now => if isRunningSession eng then eng.tick now else (eng, [])
  | .pauseOp => eng.pause
  | .resumeOp => eng.resume
  | .stopOp => eng.stop

/-- One engine step, broadcasts dropped. -/
def applyOp (eng : RaceEngine) (op : Op) : RaceEngine := (stepEv eng op).1

/-- Run a whole operation sequence from an engine state. -/
def runOps (eng : RaceEngine) (ops : List Op) : RaceEngine :=
  ops.foldl applyOp eng

/-- The engine as constructed at import time: no race, no tick task. -/
def initEngine : RaceEngine := {}

/-- The lane state the engine currently holds for a lane number, if
any: the composition of current_race and a lanes lookup. -/
def laneOf (eng : RaceEngine) (lane : ℤ) : Option LaneState :=
  match eng.current_race with
  | none => none
  | some race => dictLookup race.lanes lane

/-! ### Dictionary lemmas -/

theorem dictLookup_dictInsert_self (d : List (ℤ × LaneState)) (k : ℤ)
    (v : LaneState) : dictLookup (dictInsert d k v) k = some v := by
  induction d with
  | nil => simp [dictInsert, dictLookup]
  | cons kv rest ih =>
    by_cases h : kv.1 = k
    · simp [dictInsert, dictLookup, h]
    · simp [dictInsert, dictLookup, h, ih]

theorem dictLookup_dictInsert_ne (d : List (ℤ × LaneState)) (k k' : ℤ)
    (v : LaneState) (h : k' ≠ k) :
    dictLookup (dictInsert d k v) k' = dictLookup d k' := by
  have hne : k ≠ k' := fun hkk => h hkk.symm
  induction d with
  | nil => simp [dictInsert, dictLookup, hne]
  | cons kv rest ih =>
    by_cases hk : kv.1 = k
    · have hkk' : kv.1 ≠ k' := by rw [hk]; exact hne
      simp [dictInsert, dictLookup, hk, hne, hkk']
    · by_cases hk' : kv.1 = k'
      · simp [dictInsert, dictLookup, hk, hk', h]
      · simp [dictInsert, dictLookup, hk, hk', h, ih]

theorem mem_dictInsert (d : List (ℤ × LaneState)) (k : ℤ) (v : LaneState)
    (kv : ℤ × LaneState) (h : kv ∈ dictInsert d k v) :
    kv = (k, v) ∨ kv ∈ d := by
  induction d with
  | nil => simpa [dictInsert] using h
  | cons kv0 rest ih =>
    by_cases hk : kv0.1 = k
    · simp only [dictInsert, hk, if_pos] at h
      rcases List.mem_cons.mp h with h1 | h1
      · exact Or.inl h1
      · exact Or.inr (List.mem_cons_of_mem _ h1)
    · simp only [dictInsert, hk, if_neg, not_false_iff] at h
      rcases List.mem_cons.mp h with h1 | h1
      · exact Or.inr (h1 ▸ List.mem_cons_self _ _)
      · rcases ih h1 with h2 | h2
        · exact Or.inl h2
        · exact Or.inr (List.mem_cons_of_mem _ h2)

theorem dictLookup_mem (d : List (ℤ × LaneState)) (k : ℤ) (v : LaneState)
    (h : dictLookup d k = some v) : (k, v) ∈ d := by
  induction d with
  | nil => simp [dictLookup] at h
  | cons kv0 rest ih =>
    by_cases hk : kv0.1 = k
    · simp only [dictLookup, hk, if_pos] at h
      cases h
      have hkv : (k, kv0.2) = kv0 := by
        cases kv0
        simp_all
      rw [hkv]
      exact List.mem_cons_self _ _
    · simp only [dictLookup, hk, if_neg, not_false_iff] at h
      exact List.mem_cons_of_mem _ (ih h)

theorem dictLookup_map_val (f : LaneState → LaneState)
    (d : List (ℤ × LaneState)) (k : ℤ) :
    dictLookup (d.map (fun kv => (kv.1, f kv.2))) k =
      (dictLookup d k).map f := by
  induction d with
  | nil => simp [dictLookup]
  | cons kv0 rest ih =>
    by_cases hk : kv0.1 = k
    · simp [dictLookup, hk]
    · simp [dictLookup, hk, ih]

theorem dictLookup_map_tickLane (d : List (ℤ × LaneState)) (fuel : Bool)
    (now : ℚ) (k : ℤ) :
    dictLookup (d.map (tickLane fuel now)) k =
      (dictLookup d k).map (tickLaneFun fuel now) := by
  have : d.map (tickLane fuel now) =
      d.map (fun kv => (kv.1, tickLaneFun fuel now kv.2)) := rfl
  rw [this, dictLookup_map_val]

/-! ### markUnfinished lemmas -/

theorem markUnfinished_pred (P : LaneState → Prop)
    (hP : ∀ ls fp, P ls → P { ls with finished := true, finish_position := fp })
    (d : List (ℤ × LaneState)) (ord : List ℤ)
    (hd : ∀ kv ∈ d, P kv.2) :
    ∀ kv ∈ (markUnfinished d ord).1, P kv.2 := by
  induction d generalizing ord with
  | nil => simp [markUnfinished]
  | cons kv0 rest ih =>
    intro kv hkv
    by_cases hf : kv0.2.finished
    · simp only [markUnfinished, hf, if_pos] at hkv
      rcases List.mem_cons.mp hkv with h1 | h1
      · exact h1 ▸ hd kv0 (List.mem_cons_self _ _)
      · exact ih ord (fun x hx => hd x (List.mem_cons_of_mem _ hx)) kv h1
    · simp only [markUnfinished, hf, Bool.false_eq_true, if_neg,
        not_false_iff] at hkv
      rcases List.mem_cons.mp hkv with h1 | h1
      · subst h1
        exact hP kv0.2 _ (hd kv0 (List.mem_cons_self _ _))
      · exact ih _ (fun x hx => hd x (List.mem_cons_of_mem _ hx)) kv h1

theorem markUnfinished_lookup_finished (d : List (ℤ × LaneState))
    (ord : List ℤ) (k : ℤ) (ls : LaneState)
    (h : dictLookup d k = some ls) (hf : ls.finished = true) :
    dictLookup (markUnfinished d ord).1 k = some ls := by
  induction d generalizing ord with
  | nil => simp [dictLookup] at h
  | cons kv0 rest ih =>
    by_cases hk : kv0.1 = k
    · simp only [dictLookup, hk, if_pos] at h
      cases h
      simp [markUnfinished, hf, dictLookup, hk]
    · simp only [dictLookup, hk, if_neg, not_false_iff] at h
      by_cases hf0 : kv0.2.finished
      · simp [markUnfinished, hf0, dictLookup, hk, ih _ h]
      · simp [markUnfinished, hf0, dictLookup, hk, ih _ h]

theorem markUnfinished_all_finished (d : List (ℤ × LaneState))
    (ord : List ℤ) (h : d.all (fun kv => kv.2.finished) = true) :
    markUnfinished d ord = (d, ord) := by
  induction d generalizing ord with
  | nil => simp [markUnfinished]
  | cons kv0 rest ih =>
    simp only [List.all_cons, Bool.and_eq_true] at h
    simp [markUnfinished, h.1, ih _ h.2]

theorem markUnfinished_lookup_pos (d : List (ℤ × LaneState))
    (ord : List ℤ) (k : ℤ) :
    (dictLookup (markUnfinished d ord).1 k).map LaneState.estimated_position
      = (dictLookup d k).map LaneState.estimated_position := by
  induction d generalizing ord with
  | nil => simp [markUnfinished]
  | cons kv0 rest ih =>
    by_cases hf : kv0.2.finished
    · by_cases hk : kv0.1 = k
      · simp [markUnfinished, hf, dictLookup, hk]
      · simp [markUnfinished, hf, dictLookup, hk, ih]
    · by_cases hk : kv0.1 = k
      · simp [markUnfinished, hf, dictLookup, hk]
      · simp [markUnfinished, hf, dictLookup, hk, ih]

/-! ### Fractional-part bounds -/

theorem pyMod1_nonneg (q : ℚ) : 0 ≤ pyMod1 q := Int.fract_nonneg q

theorem pyMod1_lt_one (q : ℚ) : pyMod1 q < 1 := Int.fract_lt_one q

/-! ### The power / position bounds invariant -/

/-- The per-lane range facts the spec claims always hold. -/
def laneBoundsOK (ls : LaneState) : Prop :=
  (0 ≤ ls.power_level ∧ ls.power_level ≤ 100) ∧
  (0 ≤ ls.estimated_position ∧ ls.estimated_position < 1)

/-- The lane entries of the current race, if any. -/
def engLanes (eng : RaceEngine) : List (ℤ × LaneState) :=
  match eng.current_race with
  | none => []
  | some race => race.lanes

/-- Every lane of the current race satisfies the range facts. -/
def engineInv (eng : RaceEngine) : Prop :=
  ∀ kv ∈ engLanes eng, laneBoundsOK kv.2

theorem laneOf_engLanes (eng : RaceEngine) (lane : ℤ) :
    laneOf eng lane = dictLookup (engLanes eng) lane := by
  cases h : eng.current_race with
  | none => simp [laneOf, engLanes, h, dictLookup]
  | some race => simp [laneOf, engLanes, h]

theorem laneBoundsOK_mkLane (p : Participant) : laneBoundsOK (mkLane p) := by
  refine ⟨⟨le_refl 0, ?_⟩, le_refl 0, ?_⟩ <;> norm_num [mkLane]

theorem lanesInv_dictInsert {d : List (ℤ × LaneState)} {k : ℤ}
    {v : LaneState} (hd : ∀ kv ∈ d, laneBoundsOK kv.2)
    (hv : laneBoundsOK v) :
    ∀ kv ∈ dictInsert d k v, laneBoundsOK kv.2 := by
  intro kv hkv
  rcases mem_dictInsert _ _ _ _ hkv with h1 | h1
  · rw [h1]
    exact hv
  · exact hd kv h1

theorem mkLanes_bounds (ps : List Participant) :
    ∀ kv ∈ mkLanes ps, laneBoundsOK kv.2 := by
  have gen : ∀ (qs : List Participant) (d : List (ℤ × LaneState)),
      (∀ kv ∈ d, laneBoundsOK kv.2) →
      ∀ kv ∈ qs.foldl (fun d p => dictInsert d p.lane (mkLane p)) d,
        laneBoundsOK kv.2 := by
    intro qs
    induction qs with
    | nil =>
      intro d hd
      simpa using hd
    | cons p rest ih =>
      intro d hd kv hkv
      exact ih (dictInsert d p.lane (mkLane p))
        (lanesInv_dictInsert hd (laneBoundsOK_mkLane p)) kv hkv
  exact gen ps [] (by simp)

theorem laneBoundsOK_update_position (ls : LaneState) (now : ℚ)
    (h : laneBoundsOK ls) :
    laneBoundsOK (update_position_estimate ls now) := by
  unfold update_position_estimate
  split
  · exact h
  · split
    · exact ⟨h.1, pyMod1_nonneg _, pyMod1_lt_one _⟩
    · exact h

theorem laneBoundsOK_tickLaneFun (fuel : Bool) (now : ℚ) (ls : LaneState)
    (h : laneBoundsOK ls) : laneBoundsOK (tickLaneFun fuel now ls) := by
  unfold tickLaneFun
  split
  · exact h
  · have h1 := laneBoundsOK_update_position ls now h
    split
    · exact h1
    · exact h1

theorem lanesInv_markUnfinished {d : List (ℤ × LaneState)} {ord : List ℤ}
    (hd : ∀ kv ∈ d, laneBoundsOK kv.2) :
    ∀ kv ∈ (markUnfinished d ord).1, laneBoundsOK kv.2 :=
  markUnfinished_pred laneBoundsOK (fun _ _ h => h) d ord hd

theorem engineInv_setRace (t : Bool) (race : RaceState)
    (h : ∀ kv ∈ race.lanes, laneBoundsOK kv.2) :
    engineInv { current_race := some race, tick_task := t } := by
  intro kv hkv
  exact h kv hkv

theorem engineInv_finish_race (eng : RaceEngine) (h : engineInv eng) :
    engineInv (eng.finish_race).1 := by
  unfold RaceEngine.finish_race
  cases heq : eng.current_race with
  | none =>
    intro kv hkv
    refine h kv ?_
    simp only [engLanes] at hkv ⊢
    rw [heq]
    exact hkv
  | some race =>
    have hlanes : ∀ kv' ∈ race.lanes, laneBoundsOK kv'.2 := by
      intro kv' hkv'
      exact h kv' (by simpa [engLanes, heq] using hkv')
    intro kv hkv
    simp only [engLanes] at hkv
    exact lanesInv_markUnfinished hlanes kv hkv

theorem laneBoundsOK_countLap (ls : LaneState) (now : ℚ)
    (h : laneBoundsOK ls) : laneBoundsOK (countLap ls now) :=
  ⟨h.1, le_refl 0, by norm_num [countLap]⟩

theorem laneBoundsOK_finishLane (ls : LaneState) (ord : List ℤ)
    (h : laneBoundsOK ls) : laneBoundsOK (finishLane ls ord) :=
  ⟨h.1, h.2⟩

theorem engineInv_record_lap (eng : RaceEngine) (lane : ℤ) (now : ℚ)
    (h : engineInv eng) : engineInv (eng.record_lap lane now).1 := by
  unfold RaceEngine.record_lap
  cases heq : eng.current_race with
  | none => exact h
  | some race =>
    dsimp only
    have hlanes : ∀ kv ∈ race.lanes, laneBoundsOK kv.2 := by
      intro kv hkv
      exact h kv (by simpa [engLanes, heq] using hkv)
    by_cases hs : race.state = RaceEngineState.running
    · rw [if_pos hs]
      cases hl : dictLookup race.lanes lane with
      | none => exact h
      | some ls =>
        dsimp only
        have hb : laneBoundsOK ls := hlanes _ (dictLookup_mem _ _ _ hl)
        by_cases hf : ls.finished = true
        · rw [if_pos hf]
          exact h
        · rw [if_neg hf]
          by_cases hd : ls.current_lap = 0 ∧ lapTimeMs ls now < 1000
          · rw [if_pos hd]
            exact engineInv_setRace _ _ (lanesInv_dictInsert hlanes hb)
          · rw [if_neg hd]
            by_cases hm : race.mode = "race_laps" ∧
                race.target_laps ≤ (countLap ls now).current_lap
            · rw [if_pos hm]
              have hcount : laneBoundsOK
                  (finishLane (countLap ls now) race.finish_order) :=
                laneBoundsOK_finishLane _ _ (laneBoundsOK_countLap ls now hb)
              split
              · exact engineInv_finish_race _
                  (engineInv_setRace _ _ (lanesInv_dictInsert hlanes hcount))
              · exact engineInv_setRace _ _
                  (lanesInv_dictInsert hlanes hcount)
            · rw [if_neg hm]
              exact engineInv_setRace _ _
                (lanesInv_dictInsert hlanes (laneBoundsOK_countLap ls now hb))
    · rw [if_neg hs]
      exact h

theorem engineInv_set_power (eng : RaceEngine) (lane : ℤ) (p : ℚ)
    (h : engineInv eng) : engineInv (eng.set_power lane p) := by
  unfold RaceEngine.set_power
  cases heq : eng.current_race with
  | none => exact h
  | some race =>
    dsimp only
    have hlanes : ∀ kv ∈ race.lanes, laneBoundsOK kv.2 := by
      intro kv hkv
      exact h kv (by simpa [engLanes, heq] using hkv)
    cases hl : dictLookup race.lanes lane with
    | none => exact h
    | some ls =>
      dsimp only
      have hb : laneBoundsOK ls := hlanes _ (dictLookup_mem _ _ _ hl)
      refine engineInv_setRace _ _ ?_
      refine lanesInv_dictInsert hlanes ?_
      refine ⟨⟨le_max_left _ _, ?_⟩, hb.2⟩
      exact max_le (by norm_num) (min_le_left _ _)

theorem engineInv_tick (eng : RaceEngine) (now : ℚ) (h : engineInv eng) :
    engineInv (eng.tick now).1 := by
  unfold RaceEngine.tick
  cases heq : eng.current_race with
  | none => exact h
  | some race =>
    dsimp only
    have hlanes : ∀ kv ∈ race.lanes, laneBoundsOK kv.2 := by
      intro kv hkv
      exact h kv (by simpa [engLanes, heq] using hkv)
    cases hst : race.start_time with
    | none => exact h
    | some st =>
      dsimp only
      by_cases h0 : st = 0
      · rw [if_pos h0]
        exact h
      · rw [if_neg h0]
        have hmap : ∀ kv ∈ race.lanes.map
            (tickLane race.fuel_simulation_enabled now), laneBoundsOK kv.2 := by
          intro kv hkv
          rcases List.mem_map.mp hkv with ⟨kv0, hkv0, hkv0e⟩
          rw [← hkv0e]
          exact laneBoundsOK_tickLaneFun _ _ _ (hlanes kv0 hkv0)
        split
        · exact engineInv_finish_race _ (engineInv_setRace _ _ hmap)
        · split
          · exact engineInv_setRace _ _ hmap
          · exact engineInv_setRace _ _ hmap

theorem engineInv_start_race (eng : RaceEngine) (now : ℚ)
    (h : engineInv eng) : engineInv (eng.start_race now).1 := by
  unfold RaceEngine.start_race
  cases heq : eng.current_race with
  | none => exact h
  | some race =>
    dsimp only
    have hlanes : ∀ kv ∈ race.lanes, laneBoundsOK kv.2 := by
      intro kv hkv
      exact h kv (by simpa [engLanes, heq] using hkv)
    refine engineInv_setRace _ _ ?_
    intro kv hkv
    rcases List.mem_map.mp hkv with ⟨kv0, hkv0, hkv0e⟩
    rw [← hkv0e]
    exact hlanes kv0 hkv0

theorem engineInv_start_countdown (eng : RaceEngine) (now : ℚ)
    (h : engineInv eng) :
    ∀ r, eng.start_countdown now = .ok r → engineInv r.1 := by
  unfold RaceEngine.start_countdown
  cases heq : eng.current_race with
  | none =>
    intro r hr
    cases hr
  | some race =>
    dsimp only
    intro r hr
    have hlanes : ∀ kv ∈ race.lanes, laneBoundsOK kv.2 := by
      intro kv hkv
      exact h kv (by simpa [engLanes, heq] using hkv)
    cases hr
    refine engineInv_start_race _ _ ?_
    exact engineInv_setRace _ _ hlanes

theorem engineInv_stop (eng : RaceEngine) (h : engineInv eng) :
    engineInv (eng.stop).1 := by
  unfold RaceEngine.stop
  cases heq : eng.current_race with
  | none =>
    intro kv hkv
    refine h kv ?_
    simp only [engLanes] at hkv ⊢
    rw [heq]
    exact hkv
  | some race =>
    dsimp only
    have hlanes : ∀ kv ∈ race.lanes, laneBoundsOK kv.2 := by
      intro kv hkv
      exact h kv (by simpa [engLanes, heq] using hkv)
    exact engineInv_setRace _ _ hlanes

theorem engineInv_pause (eng : RaceEngine) (h : engineInv eng) :
    engineInv (eng.pause).1 := by
  unfold RaceEngine.pause
  cases heq : eng.current_race with
  | none => exact h
  | some race =>
    dsimp only
    have hlanes : ∀ kv ∈ race.lanes, laneBoundsOK kv.2 := by
      intro kv hkv
      exact h kv (by simpa [engLanes, heq] using hkv)
    split
    · exact engineInv_setRace _ _ hlanes
    · exact h

theorem engineInv_resume (eng : RaceEngine) (h : engineInv eng) :
    engineInv (eng.resume).1 := by
  unfold RaceEngine.resume
  cases heq : eng.current_race with
  | none => exact h
  | some race =>
    dsimp only
    have hlanes : ∀ kv ∈ race.lanes, laneBoundsOK kv.2 := by
      intro kv hkv
      exact h kv (by simpa [engLanes, heq] using hkv)
    split
    · exact engineInv_setRace _ _ hlanes
    · exact h

theorem engineInv_setup (eng : RaceEngine) (rid tid : ℤ)
    (ps : List Participant) (mode : String) (tl : ℤ) (tls : Option ℤ)
    (fuel : Bool) (_h : engineInv eng) :
    ∀ r, eng.setup_race rid tid ps mode tl tls fuel = .ok r →
      engineInv r := by
  unfold RaceEngine.setup_race
  intro r hr
  by_cases hrun : isRunningSession eng
  · simp only [hrun, if_pos] at hr
    cases hr
  · simp only [hrun, Bool.false_eq_true, if_neg, not_false_iff] at hr
    cases hr
    refine engineInv_setRace _ _ ?_
    exact mkLanes_bounds ps

theorem engineInv_applyOp (eng : RaceEngine) (op : Op)
    (h : engineInv eng) : engineInv (applyOp eng op) := by
  cases op with
  | setupOp rid tid ps mode tl tls fuel =>
    unfold applyOp stepEv
    dsimp only
    cases hr : eng.setup_race rid tid ps mode tl tls fuel with
    | ok e =>
      dsimp only
      exact engineInv_setup eng rid tid ps mode tl tls fuel h e hr
    | error s => exact h
  | startOp now =>
    unfold applyOp stepEv
    dsimp only
    cases hr : eng.start_countdown now with
    | ok r =>
      dsimp only
      exact engineInv_start_countdown eng now h r hr
    | error s => exact h
  | recordLapOp lane now => exact engineInv_record_lap eng lane now h
  | setPowerOp lane p => exact engineInv_set_power eng lane p h
  | tickOp now =>
    unfold applyOp stepEv
    dsimp only
    split
    · exact engineInv_tick eng now h
    · exact h
  | pauseOp => exact engineInv_pause eng h
  | resumeOp => exact engineInv_resume eng h
  | stopOp => exact engineInv_stop eng h

/-! ### One-step characterizations of record_lap -/

theorem record_lap_not_running (eng : RaceEngine) (race : RaceState)
    (lane : ℤ) (now : ℚ) (hr : eng.current_race = some race)
    (hs : race.state ≠ RaceEngineState.running) :
    eng.record_lap lane now = (eng, []) := by
  unfold RaceEngine.record_lap
  rw [hr]
  dsimp only
  rw [if_neg hs]

theorem record_lap_finished_lane (eng : RaceEngine) (race : RaceState)
    (lane : ℤ) (ls : LaneState) (now : ℚ)
    (hr : eng.current_race = some race)
    (hs : race.state = RaceEngineState.running)
    (hl : dictLookup race.lanes lane = some ls)
    (hf : ls.finished = true) :
    eng.record_lap lane now = (eng, []) := by
  unfold RaceEngine.record_lap
  rw [hr]
  dsimp only
  rw [if_pos hs, hl]
  dsimp only
  rw [if_pos hf]

/-- A non-debounced crossing on an unfinished lane while RUNNING: the
lane afterwards carries the countLap fields, finished/finish_position
aside, and the broadcast starts with the race:lap event. -/
theorem record_lap_counted_lane (eng : RaceEngine) (race : RaceState)
    (lane : ℤ) (ls : LaneState) (now : ℚ)
    (hr : eng.current_race = some race)
    (hs : race.state = RaceEngineState.running)
    (hl : dictLookup race.lanes lane = some ls)
    (hf : ls.finished = false)
    (hnd : ¬(ls.current_lap = 0 ∧ lapTimeMs ls now < 1000)) :
    ∃ race' ls',
      (eng.record_lap lane now).1.current_race = some race' ∧
      dictLookup race'.lanes lane = some ls' ∧
      ls'.current_lap = ls.current_lap + 1 ∧
      ls'.lap_times_ms = ls.lap_times_ms ++ [lapTimeMs ls now] ∧
      ls'.total_time_ms = ls.total_time_ms + lapTimeMs ls now ∧
      ls'.best_lap_time_ms =
        (if isBestLap ls.best_lap_time_ms (lapTimeMs ls now) then
          some (lapTimeMs ls now)
        else ls.best_lap_time_ms) ∧
      ls'.last_lap_timestamp = now ∧
      ls'.estimated_position = 0 ∧
      (eng.record_lap lane now).2 =
        lapEventOf race ls lane now :: ((eng.record_lap lane now).2.tail) := by
  unfold RaceEngine.record_lap
  rw [hr]
  dsimp only
  rw [if_pos hs, hl]
  dsimp only
  rw [if_neg (by simp [hf]), if_neg hnd]
  by_cases hm : race.mode = "race_laps" ∧
      race.target_laps ≤ (countLap ls now).current_lap
  · rw [if_pos hm]
    by_cases hall : ((dictInsert race.lanes lane
        (finishLane (countLap ls now) race.finish_order)).all
          fun kv => kv.2.finished) = true
    · rw [if_pos hall]
      dsimp only [RaceEngine.finish_race]
      refine ⟨_, finishLane (countLap ls now) race.finish_order, rfl,
        ?_, ?_, ?_, ?_, ?_, ?_, ?_, rfl⟩
      · exact markUnfinished_lookup_finished _ _ _ _
          (dictLookup_dictInsert_self _ _ _) rfl
      all_goals simp [finishLane, countLap]
    · rw [if_neg hall]
      refine ⟨_, finishLane (countLap ls now) race.finish_order, rfl,
        dictLookup_dictInsert_self _ _ _, ?_⟩
      refine ⟨?_, ?_, ?_, ?_, ?_, ?_, rfl⟩ <;>
        simp [finishLane, countLap]
  · rw [if_neg hm]
    refine ⟨_, countLap ls now, rfl, dictLookup_dictInsert_self _ _ _, ?_⟩
    refine ⟨?_, ?_, ?_, ?_, ?_, ?_, rfl⟩ <;>
      simp [countLap]

/-! ### Sequences of valid laps -/

/-- The crossing at this clock reading is a countable lap: session
RUNNING, lane known and unfinished, not debounced. -/
def validAt (eng : RaceEngine) (lane : ℤ) (now : ℚ) : Prop :=
  ∃ race ls, eng.current_race = some race ∧
    race.state = RaceEngineState.running ∧
    dictLookup race.lanes lane = some ls ∧ ls.finished = false ∧
    ¬(ls.current_lap = 0 ∧ lapTimeMs ls now < 1000)

/-- Every crossing in the list is a countable lap at the engine state
it actually meets. -/
def validSeq (eng : RaceEngine) (lane : ℤ) : List ℚ → Prop
  | [] => True
  | t :: ts => validAt eng lane t ∧ validSeq (eng.record_lap lane t).1 lane ts

/-- Run a list of crossings for one lane through record_lap. -/
def recLaps (eng : RaceEngine) (lane : ℤ) (ts : List ℚ) : RaceEngine :=
  ts.foldl (fun e t => (e.record_lap lane t).1) eng

theorem min?_append_one (l : List ℤ) (t : ℤ) :
    (l ++ [t]).min? = some (match l.min? with
      | none => t
      | some b => if t < b then t else b) := by
  cases l with
  | nil => simp [List.min?]
  | cons a l' =>
    simp only [List.min?, List.cons_append, List.foldl_append, List.foldl]
    rcases lt_or_ge t (List.foldl min a l') with hlt | hge
    · simp [min_eq_right (le_of_lt hlt), hlt]
    · simp [min_eq_left hge, not_lt.mpr hge]

/-- The running bookkeeping invariant of one lane: the lap counter is
the number of stored lap times, the total is their sum, the best lap is
their minimum. -/
def laneBookOK (ls : LaneState) : Prop :=
  ls.current_lap = (ls.lap_times_ms.length : ℤ) ∧
  ls.total_time_ms = ls.lap_times_ms.sum ∧
  ls.best_lap_time_ms = ls.lap_times_ms.min?

theorem laneBookOK_step (ls : LaneState) (now : ℚ) (ls' : LaneState)
    (hb : laneBookOK ls)
    (hc1 : ls'.current_lap = ls.current_lap + 1)
    (hc2 : ls'.lap_times_ms = ls.lap_times_ms ++ [lapTimeMs ls now])
    (hc3 : ls'.total_time_ms = ls.total_time_ms + lapTimeMs ls now)
    (hc4 : ls'.best_lap_time_ms =
      (if isBestLap ls.best_lap_time_ms (lapTimeMs ls now) then
        some (lapTimeMs ls now)
      else ls.best_lap_time_ms)) :
    laneBookOK ls' := by
  obtain ⟨hb1, hb2, hb3⟩ := hb
  refine ⟨?_, ?_, ?_⟩
  · rw [hc1, hc2, hb1]
    simp [List.length_append]
  · rw [hc3, hc2, hb2, List.sum_append]
    simp
  · rw [hc4, hc2, hb3, min?_append_one]
    cases hmin : ls.lap_times_ms.min? with
    | none => simp [isBestLap]
    | some b =>
      by_cases hlt : lapTimeMs ls now < b
      · simp [isBestLap, hlt]
      · simp [isBestLap, hlt]

theorem recLaps_book (lane : ℤ) (ts : List ℚ) :
    ∀ (eng : RaceEngine) (ls : LaneState),
      validSeq eng lane ts → laneOf eng lane = some ls → laneBookOK ls →
      ∃ ls', laneOf (recLaps eng lane ts) lane = some ls' ∧
        ls'.lap_times_ms.length = ls.lap_times_ms.length + ts.length ∧
        laneBookOK ls' := by
  induction ts with
  | nil =>
    intro eng ls _ h0 hb
    exact ⟨ls, h0, by simp [recLaps], hb⟩
  | cons t ts ih =>
    intro eng ls hv h0 hb
    obtain ⟨hvt, hvs⟩ := hv
    obtain ⟨race, ls0, hr, hs, hl, hf, hnd⟩ := hvt
    have hsame : ls0 = ls := by
      have h1 : laneOf eng lane = some ls0 := by
        simp [laneOf, hr, hl]
      rw [h0] at h1
      exact (Option.some.inj h1).symm
    subst hsame
    obtain ⟨race', ls', hr', hl', hc1, hc2, hc3, hc4, _, _, _⟩ :=
      record_lap_counted_lane eng race lane ls0 t hr hs hl hf hnd
    have h0' : laneOf (eng.record_lap lane t).1 lane = some ls' := by
      simp [laneOf, hr', hl']
    have hb' : laneBookOK ls' := laneBookOK_step ls0 t ls' hb hc1 hc2 hc3 hc4
    obtain ⟨ls'', hfin, hlen, hbook⟩ := ih _ _ hvs h0' hb'
    refine ⟨ls'', ?_, ?_, hbook⟩
    · simpa [recLaps] using hfin
    · rw [hlen, hc2]
      simp
      ring

/-! ### Tick-level position lemmas -/

theorem update_position_frozen (ls : LaneState) (now : ℚ)
    (hp : ls.power_level = 0) : update_position_estimate ls now = ls := by
  unfold update_position_estimate
  split
  · rfl
  · rw [hp]
    norm_num

theorem tickLaneFun_pos_frozen (fuel : Bool) (now : ℚ) (ls : LaneState)
    (hp : ls.power_level = 0) :
    (tickLaneFun fuel now ls).estimated_position =
      ls.estimated_position := by
  unfold tickLaneFun
  split
  · rfl
  · dsimp only
    rw [update_position_frozen ls now hp]
    split
    · rfl
    · rfl

theorem update_position_formula (ls : LaneState) (now : ℚ)
    (hts : ls.last_lap_timestamp ≠ 0) (hp : 0 < ls.power_level) :
    (update_position_estimate ls now).estimated_position =
      pyMod1 (((now - ls.last_lap_timestamp) * (ls.power_level / 100)) /
        ((sim_base_lap_time_ms : ℚ) / 1000)) := by
  unfold update_position_estimate
  rw [if_neg hts]
  dsimp only
  rw [if_pos hp]

theorem tickLaneFun_pos_formula (fuel : Bool) (now : ℚ) (ls : LaneState)
    (hfin : ls.finished = false) (hts : ls.last_lap_timestamp ≠ 0)
    (hp : 0 < ls.power_level) :
    (tickLaneFun fuel now ls).estimated_position =
      pyMod1 (((now - ls.last_lap_timestamp) * (ls.power_level / 100)) /
        ((sim_base_lap_time_ms : ℚ) / 1000)) := by
  unfold tickLaneFun
  rw [if_neg (by simp [hfin])]
  dsimp only
  split
  · exact update_position_formula ls now hts hp
  · exact update_position_formula ls now hts hp

theorem tick_laneOf_pos (eng : RaceEngine) (race : RaceState) (st : ℚ)
    (now : ℚ) (lane : ℤ)
    (hr : eng.current_race = some race)
    (hst : race.start_time = some st) (h0 : st ≠ 0) :
    (laneOf (eng.tick now).1 lane).map LaneState.estimated_position =
      ((dictLookup race.lanes lane).map
        (tickLaneFun race.fuel_simulation_enabled now)).map
          LaneState.estimated_position := by
  unfold RaceEngine.tick
  rw [hr]
  dsimp only
  rw [hst]
  dsimp only
  rw [if_neg h0]
  split
  · dsimp only [RaceEngine.finish_race]
    simp only [laneOf, markUnfinished_lookup_pos, dictLookup_map_tickLane]
  · split
    · simp only [laneOf, dictLookup_map_tickLane]
    · simp only [laneOf, dictLookup_map_tickLane]

theorem isRunningSession_iff (eng : RaceEngine) :
    isRunningSession eng = true ↔
      ∃ race, eng.current_race = some race ∧
        race.state = RaceEngineState.running := by
  unfold isRunningSession
  cases h : eng.current_race <;> simp

/-! ### Key uniqueness through dictInsert -/

theorem mem_keys_dictInsert (d : List (ℤ × LaneState)) (k : ℤ)
    (v : LaneState) (x : ℤ)
    (h : x ∈ (dictInsert d k v).map Prod.fst) :
    x = k ∨ x ∈ d.map Prod.fst := by
  rcases List.mem_map.mp h with ⟨kv, hkv, hx⟩
  rcases mem_dictInsert _ _ _ _ hkv with h1 | h1
  · left
    rw [← hx, h1]
  · right
    exact List.mem_map.mpr ⟨kv, h1, hx⟩

theorem keys_nodup_dictInsert (d : List (ℤ × LaneState)) (k : ℤ)
    (v : LaneState) (h : (d.map Prod.fst).Nodup) :
    ((dictInsert d k v).map Prod.fst).Nodup := by
  induction d with
  | nil => simp [dictInsert]
  | cons kv rest ih =>
    simp only [List.map_cons, List.nodup_cons] at h
    by_cases hk : kv.1 = k
    · simp only [dictInsert, hk, if_pos, List.map_cons, List.nodup_cons]
      exact ⟨hk ▸ h.1, h.2⟩
    · simp only [dictInsert, hk, if_neg, not_false_iff, List.map_cons,
        List.nodup_cons]
      refine ⟨?_, ih h.2⟩
      intro hmem
      rcases mem_keys_dictInsert _ _ _ _ hmem with h1 | h1
      · exact hk h1
      · exact h.1 h1

theorem mkLanes_keys_nodup (ps : List Participant) :
    ((mkLanes ps).map Prod.fst).Nodup := by
  have gen : ∀ (qs : List Participant) (d : List (ℤ × LaneState)),
      (d.map Prod.fst).Nodup →
      ((qs.foldl (fun d p => dictInsert d p.lane (mkLane p)) d).map
        Prod.fst).Nodup := by
    intro qs
    induction qs with
    | nil =>
      intro d hd
      simpa using hd
    | cons p rest ih =>
      intro d hd
      exact ih _ (keys_nodup_dictInsert _ _ _ hd)
  exact gen ps [] (by simp)

theorem mkLanes_append_one (ps : List Participant) (p : Participant) :
    mkLanes (ps ++ [p]) = dictInsert (mkLanes ps) p.lane (mkLane p) := by
  unfold mkLanes
  rw [List.foldl_append]
  rfl

/-! ### Tick no-op cases and the tick operation -/

theorem tick_no_start (eng : RaceEngine) (race : RaceState) (now : ℚ)
    (hr : eng.current_race = some race) (hst : race.start_time = none) :
    eng.tick now = (eng, []) := by
  unfold RaceEngine.tick
  rw [hr]
  dsimp only
  rw [hst]

theorem tick_zero_start (eng : RaceEngine) (race : RaceState) (now : ℚ)
    (hr : eng.current_race = some race) (hst : race.start_time = some 0) :
    eng.tick now = (eng, []) := by
  unfold RaceEngine.tick
  rw [hr]
  dsimp only
  rw [hst]
  dsimp only
  rw [if_pos rfl]

theorem applyOp_tick (eng : RaceEngine) (now : ℚ) :
    applyOp eng (Op.tickOp now) =
      if isRunningSession eng then (eng.tick now).1 else eng := by
  unfold applyOp stepEv
  dsimp only
  split <;> rfl

theorem engineInv_runOps (ops : List Op) :
    engineInv (runOps initEngine ops) := by
  have gen : ∀ (os : List Op) (eng : RaceEngine), engineInv eng →
      engineInv (runOps eng os) := by
    intro os
    induction os with
    | nil =>
      intro eng he
      exact he
    | cons o rest ih =>
      intro eng he
      exact ih (applyOp eng o) (engineInv_applyOp eng o he)
  refine gen ops initEngine ?_
  intro kv hkv
  simp [engLanes, initEngine] at hkv

/-! ### Concrete fixtures -/

/-- A fresh lane entry with the given lane number and car id. -/
def fixLane (n cid : ℤ) : LaneState := { lane_number := n, car_id := cid }

/-- Two-lane race_laps race, target 3 laps, RUNNING, session-relative
clock (start_time 0, lap timestamps 0). -/
def fixRace : RaceState :=
  { race_id := 1
    track_id := 1
    mode := "race_laps"
    target_laps := 3
    time_limit_seconds := none
    fuel_simulation_enabled := false
    lanes := [(1, fixLane 1 10), (2, fixLane 2 20)]
    state := RaceEngineState.running
    start_time := some 0 }

def fixEng : RaceEngine := { current_race := some fixRace, tick_task := true }

/-- A single-lane running race whose lane 1 last crossed at clock
reading 100. -/
def fixLaneTs : LaneState :=
  { lane_number := 1, car_id := 7, last_lap_timestamp := 100 }

def fixRaceTs : RaceState :=
  { fixRace with lanes := [(1, fixLaneTs)], start_time := some 100 }

def fixEngTs : RaceEngine :=
  { current_race := some fixRaceTs, tick_task := true }

/-- Two-lane running race_laps race with a target of a single lap. -/
def fixRaceT1 : RaceState := { fixRace with target_laps := 1 }

def fixEngT1 : RaceEngine :=
  { current_race := some fixRaceT1, tick_task := true }

/-- A running lane that has already counted one 500 ms lap. -/
def fixLaneEq : LaneState :=
  { lane_number := 1, car_id := 7, current_lap := 1, lap_times_ms := [500],
    best_lap_time_ms := some 500, total_time_ms := 500,
    last_lap_timestamp := 100 }

def fixRaceEq : RaceState :=
  { fixRace with lanes := [(1, fixLaneEq)], start_time := some 100 }

def fixEngEq : RaceEngine :=
  { current_race := some fixRaceEq, tick_task := true }

/-- The spec's scenario, driven through the public operations: 2 lanes,
targetLaps 3, race started at clock 0, lane 1 crossings at
session-relative 1.2 s, 2.3 s and 3.1 s. -/
def scenarioOps : List Op :=
  [Op.setupOp 1 1 [⟨10, 1⟩, ⟨20, 2⟩] "race_laps" 3 none false,
   Op.startOp 0,
   Op.recordLapOp 1 (6 / 5),
   Op.recordLapOp 1 (23 / 10),
   Op.recordLapOp 1 (31 / 10)]

def scenarioEng : RaceEngine := runOps initEngine scenarioOps

/-- Elementwise |x - y| ≤ tol comparison of millisecond lists, the
reading of the spec's ≈ on lap-time lists. -/
def approxList (tol : ℤ) : List ℤ → List ℤ → Bool
  | [], [] => true
  | x :: xs, y :: ys => (x - y).natAbs ≤ tol.natAbs && approxList tol xs ys
  | _, _ => false

/-- The engine after stop() has terminated the fixture session. -/
def stoppedEng : RaceEngine := (fixEng.stop).1

/-! ### Claim C1 -/

/-- Claim C1 (amended): while RUNNING, a crossing on a known, unfinished
lane with current_lap = 0 and a computed lap time under 1000 ms is
discarded: current_lap is not incremented, nothing is appended to
lap_times_ms, total_time_ms and best_lap_time_ms are untouched, and no
race:lap event is emitted — but, unlike the original claim, the lane's
last_lap_timestamp IS set to the crossing time, because record_lap
stamps the timestamp before the debounce check. The equation exhibits
the entire post-state. -/
theorem record_lap_debounce_updates_timestamp_only
    (eng : RaceEngine) (race : RaceState) (lane : ℤ) (ls : LaneState)
    (now : ℚ)
    (hr : eng.current_race = some race)
    (hs : race.state = RaceEngineState.running)
    (hl : dictLookup race.lanes lane = some ls)
    (hf : ls.finished = false)
    (h0 : ls.current_lap = 0)
    (ht : lapTimeMs ls now < 1000) :
    eng.record_lap lane now =
      ({ eng with
         current_race := some { race with
           lanes := dictInsert race.lanes lane
             { ls with last_lap_timestamp := now } } },
       []) := by
  unfold RaceEngine.record_lap
  rw [hr]
  dsimp only
  rw [if_pos hs, hl]
  dsimp only
  rw [if_neg (by simp [hf]), if_pos ⟨h0, ht⟩]

/-- Witness for C1's amended theorem: the fixture crossing at clock
100.5 (500 ms after the last crossing) is debounced. -/
theorem record_lap_debounce_updates_timestamp_only_witness :
    fixEngTs.record_lap 1 (201 / 2) =
      ({ fixEngTs with
         current_race := some { fixRaceTs with
           lanes := dictInsert fixRaceTs.lanes 1
             { fixLaneTs with last_lap_timestamp := 201 / 2 } } },
       []) :=
  record_lap_debounce_updates_timestamp_only fixEngTs fixRaceTs 1 fixLaneTs
    (201 / 2) rfl rfl rfl rfl rfl
    (by norm_num [lapTimeMs, pyInt, fixLaneTs])

/-- Claim C1 counterexample: the debounced crossing at clock 100.5 on a
lane that last crossed at clock 100 counts nothing and emits nothing,
yet the lane's last_lap_timestamp changes from 100 to 100.5 — the
claim's "the lane's last_lap_timestamp is unchanged" is false. -/
theorem record_lap_debounce_mutates_timestamp_cex :
    (fixEngTs.record_lap 1 (201 / 2)).2 = [] ∧
    (laneOf (fixEngTs.record_lap 1 (201 / 2)).1 1).map
      LaneState.current_lap = some 0 ∧
    (laneOf (fixEngTs.record_lap 1 (201 / 2)).1 1).map
      LaneState.lap_times_ms = some [] ∧
    (laneOf fixEngTs 1).map LaneState.last_lap_timestamp = some 100 ∧
    (laneOf (fixEngTs.record_lap 1 (201 / 2)).1 1).map
      LaneState.last_lap_timestamp = some (201 / 2) ∧
    (201 : ℚ) / 2 ≠ 100 := by
  norm_num [fixEngTs, fixRaceTs, fixRace, fixLaneTs, fixLane,
    RaceEngine.record_lap, dictLookup, dictInsert, lapTimeMs, pyInt, laneOf]

/-! ### Claim C2 -/

/-- Claim C2 counterexample: setup accepts a participants list with two
entries for lane 1 and silently merges them into a single lane entry
carrying the second participant's car — no rejection happens. -/
theorem setup_race_merges_duplicate_lanes_cex :
    initEngine.setup_race 1 1 [⟨10, 1⟩, ⟨20, 1⟩] "race_laps" 3 none false =
      Except.ok { current_race := some (freshRace 1 1 [⟨10, 1⟩, ⟨20, 1⟩]
        "race_laps" 3 none false), tick_task := false } ∧
    mkLanes [⟨10, 1⟩, ⟨20, 1⟩] = [(1, mkLane ⟨20, 1⟩)] ∧
    (mkLanes [⟨10, 1⟩, ⟨20, 1⟩]).length = 1 :=
  ⟨rfl, rfl, rfl⟩

/-- Claim C2 (amended): setup does not reject duplicate lane
assignments; it succeeds whenever no race is RUNNING, and participants
sharing a lane number are merged into one lane entry with the later
participant overwriting the earlier (Python dict assignment), lane
keys staying unique. -/
theorem setup_race_duplicate_lane_last_wins (eng : RaceEngine)
    (hrun : isRunningSession eng = false) (race_id track_id : ℤ)
    (ps : List Participant) (p : Participant) (mode : String)
    (target_laps : ℤ) (tls : Option ℤ) (fuel : Bool) :
    eng.setup_race race_id track_id (ps ++ [p]) mode target_laps tls fuel =
      Except.ok { eng with current_race := some (freshRace race_id track_id
        (ps ++ [p]) mode target_laps tls fuel) } ∧
    dictLookup (mkLanes (ps ++ [p])) p.lane = some (mkLane p) ∧
    ((mkLanes (ps ++ [p])).map Prod.fst).Nodup := by
  refine ⟨?_, ?_, mkLanes_keys_nodup _⟩
  · unfold RaceEngine.setup_race
    rw [hrun]
    simp
  · rw [mkLanes_append_one, dictLookup_dictInsert_self]

/-- Witness for C2's amended theorem at a concrete duplicate pair. -/
theorem setup_race_duplicate_lane_last_wins_witness :
    initEngine.setup_race 5 6 ([⟨10, 1⟩] ++ [⟨20, 1⟩]) "race_laps" 3 none
        false =
      Except.ok { initEngine with current_race := some (freshRace 5 6
        ([⟨10, 1⟩] ++ [⟨20, 1⟩]) "race_laps" 3 none false) } ∧
    dictLookup (mkLanes ([⟨10, 1⟩] ++ [⟨20, 1⟩]))
      (Participant.lane ⟨20, 1⟩) = some (mkLane ⟨20, 1⟩) ∧
    ((mkLanes ([⟨10, 1⟩] ++ [⟨20, 1⟩])).map Prod.fst).Nodup :=
  setup_race_duplicate_lane_last_wins initEngine rfl 5 6 [⟨10, 1⟩] ⟨20, 1⟩
    "race_laps" 3 none false

/-! ### Claim C7 -/

/-- Claim C7 counterexample: the session is already FINISHED after one
stop(), yet a second stop() broadcasts another race:cancelled event —
further stop() calls are not free of observable effect. -/
theorem stop_reemits_cancelled_cex :
    stoppedEng.current_race.map RaceState.state =
      some RaceEngineState.finished ∧
    (stoppedEng.stop).2 = [Event.cancelledEv 1] ∧
    (stoppedEng.stop).2 ≠ ([] : List Event) := by
  refine ⟨rfl, rfl, ?_⟩
  intro hc
  exact List.cons_ne_nil _ _ hc

/-- Claim C7 (amended): whenever a session exists, stop() forces its
state to FINISHED (from any state, terminal included), cancels the tick
task, and emits a race:cancelled event; repeated stop() calls leave the
engine state fixed (idempotent on state) but each call emits another
cancellation event. -/
theorem stop_forces_finished_and_reemits (eng : RaceEngine)
    (race : RaceState) (hr : eng.current_race = some race) :
    eng.stop =
      ({ eng with
         tick_task := false
         current_race := some { race with
           state := RaceEngineState.finished } },
       [Event.cancelledEv race.race_id]) ∧
    ((eng.stop).1.stop).1 = (eng.stop).1 ∧
    ((eng.stop).1.stop).2 = [Event.cancelledEv race.race_id] := by
  have h1 : eng.stop =
      ({ eng with
         tick_task := false
         current_race := some { race with
           state := RaceEngineState.finished } },
       [Event.cancelledEv race.race_id]) := by
    unfold RaceEngine.stop
    rw [hr]
  refine ⟨h1, ?_, ?_⟩
  · rw [h1]
    rfl
  · rw [h1]
    rfl

/-- Witness for C7's amended theorem at the running fixture. -/
theorem stop_forces_finished_and_reemits_witness :
    fixEng.stop =
      ({ fixEng with
         tick_task := false
         current_race := some { fixRace with
           state := RaceEngineState.finished } },
       [Event.cancelledEv fixRace.race_id]) ∧
    ((fixEng.stop).1.stop).1 = (fixEng.stop).1 ∧
    ((fixEng.stop).1.stop).2 = [Event.cancelledEv fixRace.race_id] :=
  stop_forces_finished_and_reemits fixEng fixRace rfl

/-! ### Claim C9 -/

/-- Claim C9 counterexample: the scenario's computed lap times are
[1200, 1100, 800] ms (1.2 s, 2.3−1.2 s, 3.1−2.3 s), not ≈
[1100, 900, 800]: the first two spec values are 100 ms and 200 ms off,
far beyond any rounding tolerance (99 ms allowed here). -/
theorem scenario_lap_times_cex :
    (laneOf scenarioEng 1).map LaneState.lap_times_ms =
      some [1200, 1100, 800] ∧
    approxList 99 [1200, 1100, 800] [1100, 900, 800] = false := by
  refine ⟨?_, by decide⟩
  norm_num [scenarioEng, scenarioOps, runOps, applyOp, stepEv, initEngine,
    RaceEngine.setup_race, RaceEngine.start_countdown, RaceEngine.start_race,
    isRunningSession, freshRace, mkLanes, mkLane, dictInsert,
    RaceEngine.record_lap, RaceEngine.finish_race, dictLookup, lapTimeMs,
    pyInt, countLap, isBestLap, finishLane, lapEventOf, laneOf,
    markUnfinished]

/-- Claim C9 (amended): in the 2-lane race_laps scenario with
targetLaps 3 and lane 1 crossings at session-relative 1.2 s, 2.3 s and
3.1 s, lane 1's lap_times_ms = [1200, 1100, 800], it finishes on its
3rd lap with finish_position 1, and the session keeps running for
lane 2. -/
theorem scenario_lane1_results :
    (laneOf scenarioEng 1).map (fun ls =>
      (ls.lap_times_ms, ls.current_lap, ls.finished, ls.finish_position)) =
      some ([1200, 1100, 800], 3, true, some 1) ∧
    scenarioEng.current_race.map RaceState.finish_order = some [1] ∧
    scenarioEng.current_race.map RaceState.state =
      some RaceEngineState.running := by
  norm_num [scenarioEng, scenarioOps, runOps, applyOp, stepEv, initEngine,
    RaceEngine.setup_race, RaceEngine.start_countdown, RaceEngine.start_race,
    isRunningSession, freshRace, mkLanes, mkLane, dictInsert,
    RaceEngine.record_lap, RaceEngine.finish_race, dictLookup, lapTimeMs,
    pyInt, countLap, isBestLap, finishLane, lapEventOf, laneOf,
    markUnfinished]

/-! ### Claim C3 -/

theorem countLap_current (ls : LaneState) (now : ℚ) :
    (countLap ls now).current_lap = ls.current_lap + 1 := by
  simp [countLap]

theorem finishLane_finished (ls : LaneState) (ord : List ℤ) :
    (finishLane ls ord).finished = true := rfl

/-- Claim C3: in race_laps mode a counted lap (session RUNNING, lane
known, unfinished, not debounced) makes the lane finished exactly when
the incremented lap counter meets or exceeds target_laps; at that
moment finish_position is set to 1 + length of finish_order (the lanes
already finished), the lane is appended to finish_order, the session
transitions to FINISHED exactly when every lane is then finished, and
the lane accepts no further crossings (so the position is assigned
exactly once). Below the target the finish fields, the finish order
and the RUNNING state are untouched. -/
theorem record_lap_finish_at_target (eng : RaceEngine) (race : RaceState)
    (lane : ℤ) (ls : LaneState) (now : ℚ)
    (hr : eng.current_race = some race)
    (hs : race.state = RaceEngineState.running)
    (hm : race.mode = "race_laps")
    (hl : dictLookup race.lanes lane = some ls)
    (hf : ls.finished = false)
    (hnd : ¬(ls.current_lap = 0 ∧ lapTimeMs ls now < 1000)) :
    ∃ race' ls',
      (eng.record_lap lane now).1.current_race = some race' ∧
      dictLookup race'.lanes lane = some ls' ∧
      ls'.current_lap = ls.current_lap + 1 ∧
      (ls'.finished = true ↔ race.target_laps ≤ ls.current_lap + 1) ∧
      (race.target_laps ≤ ls.current_lap + 1 →
        ls'.finish_position = some ((race.finish_order.length : ℤ) + 1) ∧
        race'.finish_order = race.finish_order ++ [lane] ∧
        ((race'.lanes.all (fun kv => kv.2.finished)) = true →
          race'.state = RaceEngineState.finished) ∧
        ((race'.lanes.all (fun kv => kv.2.finished)) = false →
          race'.state = RaceEngineState.running) ∧
        (∀ t2, (eng.record_lap lane now).1.record_lap lane t2 =
          ((eng.record_lap lane now).1, []))) ∧
      (¬(race.target_laps ≤ ls.current_lap + 1) →
        ls'.finished = false ∧
        ls'.finish_position = ls.finish_position ∧
        race'.finish_order = race.finish_order ∧
        race'.state = RaceEngineState.running) := by
  unfold RaceEngine.record_lap
  rw [hr]
  dsimp only
  rw [if_pos hs, hl]
  dsimp only
  rw [if_neg (by simp [hf]), if_neg hnd]
  by_cases hT : race.target_laps ≤ ls.current_lap + 1
  · rw [if_pos ⟨hm, by rw [countLap_current]; exact hT⟩]
    by_cases hall : ((dictInsert race.lanes lane
        (finishLane (countLap ls now) race.finish_order)).all
          (fun kv => kv.2.finished)) = true
    · rw [if_pos hall]
      dsimp only [RaceEngine.finish_race]
      rw [markUnfinished_all_finished _ _ hall]
      refine ⟨_, finishLane (countLap ls now) race.finish_order, rfl,
        dictLookup_dictInsert_self _ _ _, ?_, ?_, ?_, ?_⟩
      · simp [finishLane, countLap]
      · simp [finishLane, hT]
      · intro _
        refine ⟨by simp [finishLane, countLap], rfl, fun _ => rfl, ?_, ?_⟩
        · intro hfalse
          have h2 : ((dictInsert race.lanes lane
              (finishLane (countLap ls now) race.finish_order)).all
                (fun kv => kv.2.finished)) = false := hfalse
          rw [hall] at h2
          cases h2
        · intro t2
          rw [if_neg (by decide :
            ¬(RaceEngineState.finished = RaceEngineState.running))]
      · intro hcon
        exact absurd hT hcon
    · rw [if_neg hall]
      refine ⟨_, finishLane (countLap ls now) race.finish_order, rfl,
        dictLookup_dictInsert_self _ _ _, ?_, ?_, ?_, ?_⟩
      · simp [finishLane, countLap]
      · simp [finishLane, hT]
      · intro _
        refine ⟨by simp [finishLane, countLap], rfl, ?_, fun _ => hs, ?_⟩
        · intro htrue
          have h2 : ((dictInsert race.lanes lane
              (finishLane (countLap ls now) race.finish_order)).all
                (fun kv => kv.2.finished)) = true := htrue
          exact absurd h2 hall
        · intro t2
          dsimp only
          rw [if_pos hs, dictLookup_dictInsert_self]
          dsimp only
          rw [if_pos (finishLane_finished (countLap ls now)
            race.finish_order)]
      · intro hcon
        exact absurd hT hcon
  · rw [if_neg (by
      intro hcon
      exact hT (by rw [← countLap_current ls now]; exact hcon.2))]
    refine ⟨_, countLap ls now, rfl,
      dictLookup_dictInsert_self _ _ _, ?_, ?_, ?_, ?_⟩
    · simp [countLap]
    · simp [countLap, hf, hT]
    · intro hcon
      exact absurd hcon hT
    · intro _
      refine ⟨by simp [countLap, hf], by simp [countLap], rfl, hs⟩

/-- Witness for C3's theorem: single-lap target, first crossing at
clock 2 finishes lane 1 of the two-lane fixture. -/
theorem record_lap_finish_at_target_witness :
    ∃ race' ls',
      (fixEngT1.record_lap 1 2).1.current_race = some race' ∧
      dictLookup race'.lanes 1 = some ls' ∧
      ls'.current_lap = (fixLane 1 10).current_lap + 1 ∧
      (ls'.finished = true ↔
        fixRaceT1.target_laps ≤ (fixLane 1 10).current_lap + 1) ∧
      (fixRaceT1.target_laps ≤ (fixLane 1 10).current_lap + 1 →
        ls'.finish_position =
          some ((fixRaceT1.finish_order.length : ℤ) + 1) ∧
        race'.finish_order = fixRaceT1.finish_order ++ [1] ∧
        ((race'.lanes.all (fun kv => kv.2.finished)) = true →
          race'.state = RaceEngineState.finished) ∧
        ((race'.lanes.all (fun kv => kv.2.finished)) = false →
          race'.state = RaceEngineState.running) ∧
        (∀ t2, (fixEngT1.record_lap 1 2).1.record_lap 1 t2 =
          ((fixEngT1.record_lap 1 2).1, []))) ∧
      (¬(fixRaceT1.target_laps ≤ (fixLane 1 10).current_lap + 1) →
        ls'.finished = false ∧
        ls'.finish_position = (fixLane 1 10).finish_position ∧
        race'.finish_order = fixRaceT1.finish_order ∧
        race'.state = RaceEngineState.running) :=
  record_lap_finish_at_target fixEngT1 fixRaceT1 1 (fixLane 1 10) 2
    rfl rfl rfl rfl rfl (by norm_num [lapTimeMs, pyInt, fixLane])

/-! ### Claim C4 -/

/-- Claim C4: after N valid recorded laps for a lane (state RUNNING,
lane known and unfinished, crossing not debounced, at each step),
current_lap = N, lap_times_ms has N entries, total_time_ms is their sum
and best_lap_time_ms is their minimum. -/
theorem record_lap_n_valid_laps (eng : RaceEngine) (lane : ℤ)
    (ts : List ℚ) (ls : LaneState)
    (h0 : laneOf eng lane = some ls)
    (hcl : ls.current_lap = 0)
    (hlt : ls.lap_times_ms = [])
    (hbt : ls.best_lap_time_ms = none)
    (htt : ls.total_time_ms = 0)
    (hv : validSeq eng lane ts) :
    ∃ ls', laneOf (recLaps eng lane ts) lane = some ls' ∧
      ls'.current_lap = (ts.length : ℤ) ∧
      ls'.lap_times_ms.length = ts.length ∧
      ls'.total_time_ms = ls'.lap_times_ms.sum ∧
      ls'.best_lap_time_ms = ls'.lap_times_ms.min? := by
  have hb : laneBookOK ls := by
    refine ⟨?_, ?_, ?_⟩ <;> simp [hcl, hlt, hbt, htt, List.min?]
  obtain ⟨ls', hfin, hlen, hbook⟩ := recLaps_book lane ts eng ls hv h0 hb
  refine ⟨ls', hfin, ?_, ?_, hbook.2.1, hbook.2.2⟩
  · rw [hbook.1, hlen, hlt]
    simp
  · rw [hlen, hlt]
    simp

/-- Witness for C4's theorem: one valid lap at clock 1.2 on the
two-lane fixture. -/
theorem record_lap_n_valid_laps_witness :
    ∃ ls', laneOf (recLaps fixEng 1 [6 / 5]) 1 = some ls' ∧
      ls'.current_lap = (([6 / 5] : List ℚ).length : ℤ) ∧
      ls'.lap_times_ms.length = ([6 / 5] : List ℚ).length ∧
      ls'.total_time_ms = ls'.lap_times_ms.sum ∧
      ls'.best_lap_time_ms = ls'.lap_times_ms.min? :=
  record_lap_n_valid_laps fixEng 1 [6 / 5] (fixLane 1 10) rfl rfl rfl rfl rfl
    ⟨⟨fixRace, fixLane 1 10, rfl, rfl, rfl, rfl,
      by norm_num [lapTimeMs, pyInt, fixLane]⟩, trivial⟩

/-! ### Claim C5 -/

/-- Claim C5: over every operation sequence from the fresh engine,
every lane's power_level lies in [0, 100]; set_power clamps its value
into [0, 100], is a silent no-op when no session exists or the lane is
unknown, and emits no event. -/
theorem set_power_clamps_inv :
    (∀ ops lane ls, laneOf (runOps initEngine ops) lane = some ls →
      0 ≤ ls.power_level ∧ ls.power_level ≤ 100) ∧
    (∀ (eng : RaceEngine) (lane : ℤ) (p : ℚ), eng.current_race = none →
      eng.set_power lane p = eng) ∧
    (∀ (eng : RaceEngine) (race : RaceState) (lane : ℤ) (p : ℚ),
      eng.current_race = some race →
      dictLookup race.lanes lane = none → eng.set_power lane p = eng) ∧
    (∀ (eng : RaceEngine) (race : RaceState) (lane : ℤ) (ls : LaneState)
      (p : ℚ), eng.current_race = some race →
      dictLookup race.lanes lane = some ls →
      laneOf (eng.set_power lane p) lane =
        some { ls with power_level := max 0 (min 100 p) }) ∧
    (∀ (eng : RaceEngine) (lane : ℤ) (p : ℚ),
      (stepEv eng (Op.setPowerOp lane p)).2 = []) := by
  refine ⟨?_, ?_, ?_, ?_, ?_⟩
  · intro ops lane ls hlo
    have hinv := engineInv_runOps ops
    rw [laneOf_engLanes] at hlo
    exact (hinv _ (dictLookup_mem _ _ _ hlo)).1
  · intro eng lane p h
    unfold RaceEngine.set_power
    rw [h]
  · intro eng race lane p hr hl
    unfold RaceEngine.set_power
    rw [hr]
    dsimp only
    rw [hl]
  · intro eng race lane ls p hr hl
    unfold RaceEngine.set_power
    rw [hr]
    dsimp only
    rw [hl]
    dsimp only
    simp [laneOf, dictLookup_dictInsert_self]
  · intro eng lane p
    rfl

/-- Witness for C5's theorem: a clamped oversized command on the
fixture, and the invariant read back after a concrete setup. -/
theorem set_power_clamps_inv_witness :
    (0 ≤ (mkLane ⟨10, 1⟩).power_level ∧
      (mkLane ⟨10, 1⟩).power_level ≤ 100) ∧
    laneOf (fixEng.set_power 1 250) 1 =
      some { fixLane 1 10 with power_level := max 0 (min 100 250) } :=
  ⟨set_power_clamps_inv.1
      [Op.setupOp 1 1 [⟨10, 1⟩] "race_laps" 3 none false] 1
      (mkLane ⟨10, 1⟩) rfl,
   set_power_clamps_inv.2.2.2.1 fixEng fixRace 1 (fixLane 1 10) 250 rfl rfl⟩

/-! ### Claim C6 -/

/-- Claim C6: estimated_position always lies in [0, 1) (over every
operation sequence from the fresh engine); with power_level = 0 a tick
leaves a lane's estimated_position unchanged; with power_level > 0 and
an initialized last_lap_timestamp, a tick of the running session sets
it to ((now − last_lap_timestamp) · (power_level/100)) / nominal lap
seconds, taken mod 1.0 (nominal = sim_base_lap_time_ms / 1000 s). -/
theorem estimated_position_bounds_frozen_formula :
    (∀ ops lane ls, laneOf (runOps initEngine ops) lane = some ls →
      0 ≤ ls.estimated_position ∧ ls.estimated_position < 1) ∧
    (∀ (eng : RaceEngine) (lane : ℤ) (ls : LaneState) (now : ℚ),
      laneOf eng lane = some ls →
      ls.power_level = 0 →
      (laneOf (applyOp eng (Op.tickOp now)) lane).map
        LaneState.estimated_position = some ls.estimated_position) ∧
    (∀ (eng : RaceEngine) (race : RaceState) (st : ℚ) (lane : ℤ)
      (ls : LaneState) (now : ℚ), eng.current_race = some race →
      race.state = RaceEngineState.running →
      race.start_time = some st → st ≠ 0 →
      dictLookup race.lanes lane = some ls →
      ls.finished = false → ls.last_lap_timestamp ≠ 0 →
      0 < ls.power_level →
      (laneOf (applyOp eng (Op.tickOp now)) lane).map
        LaneState.estimated_position =
        some (pyMod1 (((now - ls.last_lap_timestamp) *
          (ls.power_level / 100)) /
          ((sim_base_lap_time_ms : ℚ) / 1000)))) := by
  refine ⟨?_, ?_, ?_⟩
  · intro ops lane ls hlo
    have hinv := engineInv_runOps ops
    rw [laneOf_engLanes] at hlo
    exact (hinv _ (dictLookup_mem _ _ _ hlo)).2
  · intro eng lane ls now hlo hp
    rw [applyOp_tick]
    by_cases hrun : isRunningSession eng = true
    · rw [if_pos hrun]
      obtain ⟨race, hr, _⟩ := (isRunningSession_iff eng).mp hrun
      have hl : dictLookup race.lanes lane = some ls := by
        simpa [laneOf, hr] using hlo
      cases hst : race.start_time with
      | none =>
        rw [tick_no_start eng race now hr hst]
        simpa [laneOf, hr] using congrArg
          (Option.map LaneState.estimated_position) hlo
      | some st =>
        by_cases h0 : st = 0
        · subst h0
          rw [tick_zero_start eng race now hr hst]
          simpa [laneOf, hr] using congrArg
            (Option.map LaneState.estimated_position) hlo
        · rw [tick_laneOf_pos eng race st now lane hr hst h0, hl]
          simp [tickLaneFun_pos_frozen _ _ _ hp]
    · rw [if_neg (by simpa using hrun)]
      rw [hlo]
      rfl
  · intro eng race st lane ls now hr hsr hst h0 hl hfin hts hp
    have hrun : isRunningSession eng = true :=
      (isRunningSession_iff eng).mpr ⟨race, hr, hsr⟩
    rw [applyOp_tick, if_pos hrun]
    rw [tick_laneOf_pos eng race st now lane hr hst h0, hl]
    simp [tickLaneFun_pos_formula _ _ _ hfin hts hp]

/-- Witness for C6's theorem: the bound read back after a concrete
setup, and a frozen zero-power lane across a concrete tick. -/
theorem estimated_position_bounds_frozen_formula_witness :
    (0 ≤ (mkLane ⟨10, 1⟩).estimated_position ∧
      (mkLane ⟨10, 1⟩).estimated_position < 1) ∧
    (laneOf (applyOp fixEng (Op.tickOp 7)) 1).map
      LaneState.estimated_position =
      some ((fixLane 1 10).estimated_position) :=
  ⟨estimated_position_bounds_frozen_formula.1
      [Op.setupOp 1 1 [⟨10, 1⟩] "race_laps" 3 none false] 1
      (mkLane ⟨10, 1⟩) rfl,
   estimated_position_bounds_frozen_formula.2.1 fixEng 1 (fixLane 1 10) 7
      rfl rfl⟩

/-! ### Claim C8 -/

/-- Claim C8: setup while the current session is RUNNING raises the
Conflict error and leaves the engine unchanged; in every other
situation (no session, or a session in any non-RUNNING state) setup
succeeds and installs a fresh IDLE session built from the
participants. -/
theorem setup_race_conflict_or_fresh (eng : RaceEngine) (race : RaceState)
    (rid tid : ℤ) (ps : List Participant) (mode : String)
    (target_laps : ℤ) (tls : Option ℤ) (fuel : Bool) :
    (eng.current_race = some race →
      race.state = RaceEngineState.running →
      eng.setup_race rid tid ps mode target_laps tls fuel =
        Except.error "Cannot setup new race while another is running" ∧
      applyOp eng (Op.setupOp rid tid ps mode target_laps tls fuel) = eng) ∧
    (isRunningSession eng = false →
      eng.setup_race rid tid ps mode target_laps tls fuel =
        Except.ok { eng with
          current_race :=
            some (freshRace rid tid ps mode target_laps tls fuel) } ∧
      (freshRace rid tid ps mode target_laps tls fuel).state =
        RaceEngineState.idle ∧
      (freshRace rid tid ps mode target_laps tls fuel).lanes =
        mkLanes ps ∧
      (freshRace rid tid ps mode target_laps tls fuel).finish_order =
        []) := by
  constructor
  · intro hr hsr
    have hrun : isRunningSession eng = true :=
      (isRunningSession_iff eng).mpr ⟨race, hr, hsr⟩
    have herr : eng.setup_race rid tid ps mode target_laps tls fuel =
        Except.error "Cannot setup new race while another is running" := by
      unfold RaceEngine.setup_race
      rw [hrun]
      simp
    refine ⟨herr, ?_⟩
    unfold applyOp stepEv
    dsimp only
    rw [herr]
  · intro hrun
    refine ⟨?_, rfl, rfl, rfl⟩
    unfold RaceEngine.setup_race
    rw [hrun]
    simp

/-- Witness for C8's theorem: the conflict at the running fixture and
the fresh session from the idle engine. -/
theorem setup_race_conflict_or_fresh_witness :
    (fixEng.setup_race 9 9 [] "race_laps" 3 none false =
        Except.error "Cannot setup new race while another is running" ∧
      applyOp fixEng (Op.setupOp 9 9 [] "race_laps" 3 none false) =
        fixEng) ∧
    (initEngine.setup_race 9 9 [] "race_laps" 3 none false =
        Except.ok { initEngine with
          current_race :=
            some (freshRace 9 9 [] "race_laps" 3 none false) } ∧
      (freshRace 9 9 [] "race_laps" 3 none false).state =
        RaceEngineState.idle ∧
      (freshRace 9 9 [] "race_laps" 3 none false).lanes = mkLanes [] ∧
      (freshRace 9 9 [] "race_laps" 3 none false).finish_order = []) :=
  ⟨(setup_race_conflict_or_fresh fixEng fixRace 9 9 [] "race_laps" 3 none
      false).1 rfl rfl,
   (setup_race_conflict_or_fresh initEngine fixRace 9 9 [] "race_laps" 3
      none false).2 rfl⟩

/-! ### Claim C10 -/

/-- Claim C10: the race:lap event of a counted lap carries
is_best_lap = (no best yet, or strictly faster than it); a lap exactly
equal to the current best leaves best_lap_time_ms unchanged and its
event has is_best_lap = false; a lane's first counted lap (no best lap
recorded yet) always has is_best_lap = true. -/
theorem record_lap_best_strict_improvement (eng : RaceEngine)
    (race : RaceState) (lane : ℤ) (ls : LaneState) (now : ℚ)
    (hr : eng.current_race = some race)
    (hs : race.state = RaceEngineState.running)
    (hl : dictLookup race.lanes lane = some ls)
    (hf : ls.finished = false)
    (hnd : ¬(ls.current_lap = 0 ∧ lapTimeMs ls now < 1000)) :
    ∃ race' ls',
      (eng.record_lap lane now).1.current_race = some race' ∧
      dictLookup race'.lanes lane = some ls' ∧
      (eng.record_lap lane now).2 =
        Event.lapEv race.race_id ls.car_id lane (ls.current_lap + 1)
          (lapTimeMs ls now)
          (isBestLap ls.best_lap_time_ms (lapTimeMs ls now)) ::
          (eng.record_lap lane now).2.tail ∧
      (ls.best_lap_time_ms = none →
        isBestLap ls.best_lap_time_ms (lapTimeMs ls now) = true ∧
        ls'.best_lap_time_ms = some (lapTimeMs ls now)) ∧
      (ls.best_lap_time_ms = some (lapTimeMs ls now) →
        isBestLap ls.best_lap_time_ms (lapTimeMs ls now) = false ∧
        ls'.best_lap_time_ms = ls.best_lap_time_ms) ∧
      (∀ b, ls.best_lap_time_ms = some b → ¬ lapTimeMs ls now < b →
        ls'.best_lap_time_ms = ls.best_lap_time_ms) := by
  obtain ⟨race', ls', hr', hl', _, _, _, hc4, _, _, hev⟩ :=
    record_lap_counted_lane eng race lane ls now hr hs hl hf hnd
  refine ⟨race', ls', hr', hl', ?_, ?_, ?_, ?_⟩
  · simpa [lapEventOf] using hev
  · intro hb
    have h1 : isBestLap ls.best_lap_time_ms (lapTimeMs ls now) = true := by
      simp [isBestLap, hb]
    exact ⟨h1, by rw [hc4, if_pos h1]⟩
  · intro hb
    have h1 : isBestLap ls.best_lap_time_ms (lapTimeMs ls now) = false := by
      simp [isBestLap, hb]
    exact ⟨h1, by rw [hc4, if_neg (by simp [h1])]⟩
  · intro b hb hnlt
    have h1 : isBestLap ls.best_lap_time_ms (lapTimeMs ls now) = false := by
      simp [isBestLap, hb, hnlt]
    rw [hc4, if_neg (by simp [h1])]

/-- Witness for C10's theorem: a second lap exactly matching the 500 ms
best on the fixture lane. -/
theorem record_lap_best_strict_improvement_witness :
    ∃ race' ls',
      (fixEngEq.record_lap 1 (201 / 2)).1.current_race = some race' ∧
      dictLookup race'.lanes 1 = some ls' ∧
      (fixEngEq.record_lap 1 (201 / 2)).2 =
        Event.lapEv fixRaceEq.race_id fixLaneEq.car_id 1
          (fixLaneEq.current_lap + 1) (lapTimeMs fixLaneEq (201 / 2))
          (isBestLap fixLaneEq.best_lap_time_ms
            (lapTimeMs fixLaneEq (201 / 2))) ::
          (fixEngEq.record_lap 1 (201 / 2)).2.tail ∧
      (fixLaneEq.best_lap_time_ms = none →
        isBestLap fixLaneEq.best_lap_time_ms
          (lapTimeMs fixLaneEq (201 / 2)) = true ∧
        ls'.best_lap_time_ms = some (lapTimeMs fixLaneEq (201 / 2))) ∧
      (fixLaneEq.best_lap_time_ms = some (lapTimeMs fixLaneEq (201 / 2)) →
        isBestLap fixLaneEq.best_lap_time_ms
          (lapTimeMs fixLaneEq (201 / 2)) = false ∧
        ls'.best_lap_time_ms = fixLaneEq.best_lap_time_ms) ∧
      (∀ b, fixLaneEq.best_lap_time_ms = some b →
        ¬ lapTimeMs fixLaneEq (201 / 2) < b →
        ls'.best_lap_time_ms = fixLaneEq.best_lap_time_ms) :=
  record_lap_best_strict_improvement fixEngEq fixRaceEq 1 fixLaneEq
    (201 / 2) rfl rfl rfl rfl (by norm_num [fixLaneEq])

end PiLane
